import Mathlib

/-!
Shallow embedding of `src/analyzer.py` from the strava-shoe-comparison
repository.  Python dictionaries with optional fields become a record of
`Option` fields; `activity.get(key, 0)` becomes `Option.getD · 0`.
Python floats are modelled as exact rationals (`ℚ`).  A Python
`ZeroDivisionError` (possible in `calculate_estimated_gap` when the
elevation factor is zero) is modelled by an `Option` result: `none`
means the call raises.
-/

/-- An activity record as consumed by the analyzer: every field the
analyzer reads, each optional (a missing key in the Python dict). -/
structure Activity where
  type : Option String := none
  sport_type : Option String := none
  distance : Option ℚ := none
  moving_time : Option ℚ := none
  total_elevation_gain : Option ℚ := none
  gear_id : Option String := none
  workout_type : Option Int := none
  name : Option String := none
deriving DecidableEq, Repr

/-- `activity.get("distance", 0)`. -/
def Activity.distanceVal (a : Activity) : ℚ := a.distance.getD 0

/-- `activity.get("moving_time", 0)`. -/
def Activity.timeVal (a : Activity) : ℚ := a.moving_time.getD 0

/-- `activity.get("total_elevation_gain", 0)`. -/
def Activity.gainVal (a : Activity) : ℚ := a.total_elevation_gain.getD 0

/-- `activity.get("name", "")`. -/
def Activity.nameVal (a : Activity) : String := a.name.getD ""

/-! ### `filter_running_activities` -/

def running_types : List String := ["Run", "TrailRun", "VirtualRun"]

/-- Membership test `activity.get("type") in running_types` on an optional
string (`None` is never in the set). -/
def optInRunning (o : Option String) : Bool :=
  match o with
  | none => false
  | some s => running_types.contains s

def filter_running_activities (activities : List Activity) : List Activity :=
  activities.filter fun a => optInRunning a.type || optInRunning a.sport_type

/-! ### `group_by_gear` -/

/-- The grouping key: `gear_id` when truthy (present and non-empty),
else the sentinel `"no_gear"`. -/
def gearKey (a : Activity) : String :=
  match a.gear_id with
  | some g => if g = "" then "no_gear" else g
  | none => "no_gear"

/-- `grouped[key].append(a)` on an insertion-ordered map: update the first
entry with this key, or append a fresh singleton entry at the end. -/
def insertGrouped (key : String) (a : Activity) :
    List (String × List Activity) → List (String × List Activity)
  | [] => [(key, [a])]
  | (k, g) :: rest =>
      if k = key then (k, g ++ [a]) :: rest else (k, g) :: insertGrouped key a rest

/-- `group_by_gear`: fold the activities into an insertion-ordered map
(Python dicts preserve insertion order). -/
def group_by_gear (activities : List Activity) : List (String × List Activity) :=
  activities.foldl (fun m a => insertGrouped (gearKey a) a m) []

/-! ### `calculate_average_pace` -/

/-- One iteration of the accumulation loop of `calculate_average_pace`:
skip the activity when `distance <= 0 or moving_time <= 0`, otherwise add
distance and moving time to the running totals. -/
def paceAccum (acc : ℚ × ℚ) (a : Activity) : ℚ × ℚ :=
  if a.distanceVal ≤ 0 ∨ a.timeVal ≤ 0 then acc
  else (acc.1 + a.distanceVal, acc.2 + a.timeVal)

def calculate_average_pace (activities : List Activity) : ℚ :=
  let t := activities.foldl paceAccum (0, 0)
  if t.1 = 0 then 0 else (t.2 / (t.1 / 1000)) / 60

/-! ### `calculate_estimated_gap` -/

/-- `ADJUSTMENT_COEFFICIENT = 0.033`. -/
def ADJUSTMENT_COEFFICIENT : ℚ := 33 / 1000

/-- The per-activity elevation factor
`1 + (elevation_gain / distance) * 100 * 0.033` (with the source's guard
`if distance > 0 else 0` on the grade). -/
def elevationFactorOf (a : Activity) : ℚ :=
  1 + (if 0 < a.distanceVal then a.gainVal / a.distanceVal * 100 else 0)
        * ADJUSTMENT_COEFFICIENT

/-- One iteration of the accumulation loop of `calculate_estimated_gap`.
`none` marks that a `ZeroDivisionError` has been raised (division of
`moving_time` by a zero elevation factor); once raised the loop is
abandoned. -/
def gapAccum (acc : Option (ℚ × ℚ)) (a : Activity) : Option (ℚ × ℚ) :=
  match acc with
  | none => none
  | some (d, t) =>
      if a.distanceVal ≤ 0 ∨ a.timeVal ≤ 0 then some (d, t)
      else if elevationFactorOf a = 0 then none
      else some (d + a.distanceVal, t + a.timeVal / elevationFactorOf a)

/-- `calculate_estimated_gap`; `none` means the Python function raises a
`ZeroDivisionError`. -/
def calculate_estimated_gap (activities : List Activity) : Option ℚ :=
  match activities.foldl gapAccum (some (0, 0)) with
  | none => none
  | some (d, t) => if d = 0 then some 0 else some ((t / (d / 1000)) / 60)

/-! ### `format_pace` -/

/-- Python `int()` on a float: truncation toward zero. -/
def ratTrunc (q : ℚ) : Int := if q < 0 then -(⌊-q⌋) else ⌊q⌋

/-- Python `f"{n:02d}"`: minimum width two, zero padding, the sign counted
in the width. -/
def pad2 (n : Int) : String :=
  if 0 ≤ n ∧ n < 10 then "0" ++ toString n else toString n

def format_pace (pace_minutes : ℚ) : String :=
  if pace_minutes = 0 then "0:00"
  else
    toString (ratTrunc pace_minutes) ++ ":" ++
      pad2 (ratTrunc ((pace_minutes - (ratTrunc pace_minutes : ℚ)) * 60))

/-! ### `is_race`, `filter_non_race_activities` -/

/-- Pattern-before-text match: does `pat` occur at the head of `text`? -/
def leadMatch : List Char → List Char → Bool
  | [], _ => true
  | _ :: _, [] => false
  | p :: ps, c :: cs => p == c && leadMatch ps cs

/-- Python's `pat in text` substring test, on character lists. -/
def subMatch (pat : List Char) : List Char → Bool
  | [] => leadMatch pat []
  | c :: cs => leadMatch pat (c :: cs) || subMatch pat cs

/-- Python `str.lower()` (ASCII case folding, as used by the analyzer's
keyword list). -/
def lowerStr (s : String) : String := String.mk (s.data.map Char.toLower)

def race_keywords : List String :=
  ["race", "parkrun", "marathon", "half marathon", "10k race", "5k race"]

def is_race (a : Activity) : Bool :=
  if a.workout_type = some 1 then true
  else
    race_keywords.any fun kw => subMatch kw.data (lowerStr a.nameVal).data

def filter_non_race_activities (activities : List Activity) : List Activity :=
  activities.filter fun a => ! is_race a

/-! ### `calculate_shoe_statistics` -/

structure ShoeStatistics where
  activity_count : Nat
  total_distance_km : ℚ
  average_pace_min_per_km : ℚ
  estimated_gap_min_per_km : ℚ
  non_race_count : Nat
  average_pace_non_race_min_per_km : ℚ
  estimated_gap_non_race_min_per_km : ℚ
deriving DecidableEq, Repr

/-- `calculate_shoe_statistics`; `none` when either of the two
`calculate_estimated_gap` calls raises. -/
def calculate_shoe_statistics (activities : List Activity) : Option ShoeStatistics :=
  match calculate_estimated_gap activities,
        calculate_estimated_gap (filter_non_race_activities activities) with
  | some gapAll, some gapNonRace =>
      some
        { activity_count := activities.length
          total_distance_km := (activities.map Activity.distanceVal).sum / 1000
          average_pace_min_per_km := calculate_average_pace activities
          estimated_gap_min_per_km := gapAll
          non_race_count := (filter_non_race_activities activities).length
          average_pace_non_race_min_per_km :=
            calculate_average_pace (filter_non_race_activities activities)
          estimated_gap_non_race_min_per_km := gapNonRace }
  | _, _ => none

/-! ### Claim-side definitions

These follow the wording of the specification/claims (valid activity,
grade percent, elevation factor, adjusted time, accumulated sums), to be
compared with the loop-based source embedding above. -/

/-- Claim wording: an activity is valid when `distance > 0` and
`moving_time > 0`. -/
def claimValid (a : Activity) : Bool :=
  decide (0 < a.distanceVal) && decide (0 < a.timeVal)

/-- Claim wording: accumulated distance over the valid activities. -/
def claimTotalDistance (l : List Activity) : ℚ :=
  ((l.filter claimValid).map Activity.distanceVal).sum

/-- Claim wording: accumulated moving time over the valid activities. -/
def claimTotalTime (l : List Activity) : ℚ :=
  ((l.filter claimValid).map Activity.timeVal).sum

/-- Claim wording for `averagePace`: 0 when the accumulated distance is
zero, else `(totalTime_s / (totalDistance_m/1000)) / 60`. -/
def claimAvgPace (l : List Activity) : ℚ :=
  if claimTotalDistance l = 0 then 0
  else (claimTotalTime l / (claimTotalDistance l / 1000)) / 60

/-- Claim wording: `gradePercent = elevationGain/distance*100`. -/
def claimGradePercent (a : Activity) : ℚ := a.gainVal / a.distanceVal * 100

/-- Claim wording: `elevationFactor = 1 + gradePercent*0.033`. -/
def claimElevationFactor (a : Activity) : ℚ :=
  1 + claimGradePercent a * (33 / 1000)

/-- Claim wording: `adjustedTime = moving_time/elevationFactor`. -/
def claimAdjustedTime (a : Activity) : ℚ := a.timeVal / claimElevationFactor a

/-- Claim wording: accumulated adjusted time over the valid activities. -/
def claimTotalAdjTime (l : List Activity) : ℚ :=
  ((l.filter claimValid).map claimAdjustedTime).sum

/-- Claim wording for `estimatedGAP`: 0 when the accumulated distance is
zero, else `(totalAdjustedTime_s / (totalDistance_m/1000)) / 60`. -/
def claimGap (l : List Activity) : ℚ :=
  if claimTotalDistance l = 0 then 0
  else (claimTotalAdjTime l / (claimTotalDistance l / 1000)) / 60

/-! ### Concrete activities used in witnesses and counterexamples -/

/-- A flat 10 km run in 3000 s (a spec test vector). -/
def exActFlat : Activity :=
  { distance := some 10000, moving_time := some 3000, total_elevation_gain := some 0 }

/-- A steep 1 km run in 300 s with 100 m of gain (a spec test vector). -/
def exActUp : Activity :=
  { distance := some 1000, moving_time := some 300, total_elevation_gain := some 100 }

/-- An activity whose elevation factor is exactly zero:
`1 + (-10/33)*100*0.033 = 0`.  Feeding it to `calculate_estimated_gap`
divides `moving_time` by zero. -/
def exActZeroDiv : Activity :=
  { distance := some 33, moving_time := some 1, total_elevation_gain := some (-10) }

/-- The activity of `exActZeroDiv` named so that `is_race` accepts it. -/
def exRaceZeroDiv : Activity :=
  { distance := some 33, moving_time := some 1, total_elevation_gain := some (-10),
    name := some "10k race" }

/-- An activity with a negative elevation factor (`1 - 3.3 = -2.3`),
giving a strictly negative adjusted time and so a negative GAP. -/
def exActNegGap : Activity :=
  { distance := some 100, moving_time := some 100, total_elevation_gain := some (-100) }

/-- A flat race activity (`workout_type = 1`) with sound numeric fields. -/
def exRaceFlat : Activity :=
  { distance := some 10000, moving_time := some 3000,
    total_elevation_gain := some 0, workout_type := some 1 }

/-- An activity called "Boston Marathon". -/
def exBoston : Activity := { name := some "Boston Marathon" }

/-- An activity called "Evening Jog", with `workout_type` absent. -/
def exEveningJog : Activity := { name := some "Evening Jog" }

/-- An activity with `workout_type = 1` and an arbitrary name. -/
def raceTyped (n : Option String) : Activity :=
  { workout_type := some 1, name := n }

/-- Does the lower-cased name of `a` contain `kw` as a substring? -/
def nameHasKw (a : Activity) (kw : String) : Prop :=
  subMatch kw.data (lowerStr a.nameVal).data = true

/-- Gear example: first activity on gear "A". -/
def exGearA0 : Activity := { gear_id := some "A", name := some "a0" }

/-- Gear example: activity with no gear. -/
def exGearNone : Activity := { name := some "a1" }

/-- Gear example: second activity on gear "A". -/
def exGearA2 : Activity := { gear_id := some "A", name := some "a2" }

/-- Gear example: activity on gear "B". -/
def exGearB : Activity := { gear_id := some "B", name := some "a3" }

/-- The keys of an insertion-ordered map, in order. -/
def keysOf (m : List (String × List Activity)) : List String := m.map Prod.fst

/-- Lookup of a key in an insertion-ordered map (first matching entry). -/
def lookupGroup (k : String) : List (String × List Activity) → Option (List Activity)
  | [] => none
  | (k₁, g) :: rest => if k₁ = k then some g else lookupGroup k rest

/-- Loop invariant of the `group_by_gear` fold after consuming the
prefix `pre`: the keys are distinct, they are exactly the gear keys
encountered in `pre`, and each key's group is the in-order sublist of
`pre` with that gear key. -/
def GroupInv (pre : List Activity) (m : List (String × List Activity)) : Prop :=
  (keysOf m).Nodup ∧
  (∀ k, k ∈ keysOf m ↔ k ∈ pre.map gearKey) ∧
  (∀ k, lookupGroup k m
      = if k ∈ pre.map gearKey
        then some (pre.filter fun b => gearKey b == k) else none)

/-- Claim wording for `formatPace` (C8): floored minutes, colon, then
`round_down((minutes - floor(minutes)) * 60)` zero-padded to two digits,
with 0 mapped to `"0:00"`. -/
def claimFormatPace (p : ℚ) : String :=
  if p = 0 then "0:00"
  else toString ⌊p⌋ ++ ":" ++ pad2 ⌊(p - (⌊p⌋ : ℚ)) * 60⌋

/-- The seconds integer rendered by `format_pace` after its minutes
truncation, i.e. Python's `int((pace_minutes - minutes) * 60)`. -/
def secondsPart (p : ℚ) : Int := ratTrunc ((p - (ratTrunc p : ℚ)) * 60)

/-! ### Helper lemmas about the accumulation loops -/

lemma claimValid_iff (a : Activity) :
    claimValid a = true ↔ ¬(a.distanceVal ≤ 0 ∨ a.timeVal ≤ 0) := by
  simp [claimValid, not_or, not_le]

lemma paceAccum_foldl (l : List Activity) :
    ∀ d t : ℚ, l.foldl paceAccum (d, t)
      = (d + claimTotalDistance l, t + claimTotalTime l) := by
  induction l with
  | nil => intro d t; simp [claimTotalDistance, claimTotalTime]
  | cons a l ih =>
      intro d t
      by_cases h : a.distanceVal ≤ 0 ∨ a.timeVal ≤ 0
      · have hv : claimValid a = false := by
          rw [Bool.eq_false_iff, ne_eq, claimValid_iff]; exact not_not_intro h
        simp [List.foldl_cons, paceAccum, if_pos h, ih,
          claimTotalDistance, claimTotalTime, List.filter_cons, hv]
      · have hv : claimValid a = true := (claimValid_iff a).mpr h
        simp [List.foldl_cons, paceAccum, if_neg h, ih,
          claimTotalDistance, claimTotalTime, List.filter_cons, hv, add_assoc]

lemma gapAccum_skip (a : Activity) (h : a.distanceVal ≤ 0 ∨ a.timeVal ≤ 0)
    (acc : Option (ℚ × ℚ)) : gapAccum acc a = acc := by
  cases acc with
  | none => rfl
  | some p => cases p with
    | mk d t => simp [gapAccum, if_pos h]

lemma elevationFactorOf_eq (a : Activity) (h : 0 < a.distanceVal) :
    elevationFactorOf a = claimElevationFactor a := by
  simp [elevationFactorOf, claimElevationFactor, claimGradePercent,
    ADJUSTMENT_COEFFICIENT, if_pos h]

lemma gapAccum_foldl (l : List Activity)
    (hsafe : ∀ a ∈ l, claimValid a = true → claimElevationFactor a ≠ 0) :
    ∀ d t : ℚ, l.foldl gapAccum (some (d, t))
      = some (d + claimTotalDistance l, t + claimTotalAdjTime l) := by
  induction l with
  | nil => intro d t; simp [claimTotalDistance, claimTotalAdjTime]
  | cons a l ih =>
      intro d t
      have hsafe' : ∀ b ∈ l, claimValid b = true → claimElevationFactor b ≠ 0 :=
        fun b hb => hsafe b (List.mem_cons_of_mem a hb)
      by_cases h : a.distanceVal ≤ 0 ∨ a.timeVal ≤ 0
      · have hv : claimValid a = false := by
          rw [Bool.eq_false_iff, ne_eq, claimValid_iff]; exact not_not_intro h
        rw [List.foldl_cons, gapAccum_skip a h, ih hsafe']
        simp [claimTotalDistance, claimTotalAdjTime, List.filter_cons, hv]
      · have hv : claimValid a = true := (claimValid_iff a).mpr h
        have hd : 0 < a.distanceVal := by
          rcases not_or.mp h with ⟨h1, _⟩; exact lt_of_not_le h1
        have hfac : claimElevationFactor a ≠ 0 :=
          hsafe a (List.mem_cons_self a l) hv
        have hfac' : elevationFactorOf a ≠ 0 := by
          rw [elevationFactorOf_eq a hd]; exact hfac
        rw [List.foldl_cons]
        have hstep : gapAccum (some (d, t)) a
            = some (d + a.distanceVal, t + claimAdjustedTime a) := by
          simp only [gapAccum, if_neg h, if_neg hfac']
          rw [elevationFactorOf_eq a hd]; rfl
        rw [hstep, ih hsafe']
        simp [claimTotalDistance, claimTotalAdjTime, List.filter_cons,
          hv, add_assoc]

lemma paceAccum_skip (a : Activity) (h : a.distanceVal ≤ 0 ∨ a.timeVal ≤ 0)
    (acc : ℚ × ℚ) : paceAccum acc a = acc := by
  simp [paceAccum, if_pos h]

lemma gap_eq_claimGap (l : List Activity)
    (hsafe : ∀ a ∈ l, claimValid a = true → claimElevationFactor a ≠ 0) :
    calculate_estimated_gap l = some (claimGap l) := by
  unfold calculate_estimated_gap
  rw [gapAccum_foldl l hsafe 0 0]
  by_cases h : claimTotalDistance l = 0 <;> simp [h, claimGap]

lemma avg_eq_claimAvgPace (l : List Activity) :
    calculate_average_pace l = claimAvgPace l := by
  unfold calculate_average_pace
  rw [paceAccum_foldl l 0 0]
  by_cases h : claimTotalDistance l = 0 <;> simp [h, claimAvgPace]

/-- C1: for every list of activities (whose described computation is
defined, i.e. no valid activity has a zero elevation factor),
`calculate_estimated_gap` returns exactly the claim's computation: per
valid activity `gradePercent = elevationGain/distance*100`,
`elevationFactor = 1 + gradePercent*0.033`,
`adjustedTime = moving_time/elevationFactor`, accumulate distance and
adjusted time, and convert: 0 when the accumulated distance is zero, else
`(totalAdjustedTime_s / (totalDistance_m/1000)) / 60`. -/
theorem C1_estimated_gap_formula (l : List Activity)
    (hsafe : ∀ a ∈ l, claimValid a = true → claimElevationFactor a ≠ 0) :
    calculate_estimated_gap l = some (claimGap l) :=
  gap_eq_claimGap l hsafe

/-- Witness for C1 at the spec's own example (distance 1000 m, moving
time 300 s, elevation gain 100 m): grade 10 %, factor 1.33, GAP
`500/133 ≈ 3.759` min/km. -/
theorem C1_estimated_gap_formula_witness :
    calculate_estimated_gap [exActUp] = some (claimGap [exActUp]) ∧
    claimGap [exActUp] = 500 / 133 := by
  constructor
  · refine C1_estimated_gap_formula [exActUp] ?_
    intro a ha
    simp only [List.mem_singleton] at ha
    subst ha
    norm_num [claimElevationFactor, claimGradePercent, Activity.gainVal,
      Activity.distanceVal, exActUp]
  · norm_num [claimGap, claimTotalDistance, claimTotalAdjTime, claimValid,
      claimAdjustedTime, claimElevationFactor, claimGradePercent,
      Activity.distanceVal, Activity.timeVal, Activity.gainVal, List.filter,
      exActUp]

/-- C2: `calculate_average_pace` sums distance and moving time over the
activities where both are strictly positive, returns 0 when the
accumulated distance is zero, and otherwise
`(totalTime_s / (totalDistance_m/1000)) / 60`; in particular the empty
list yields 0. -/
theorem C2_average_pace_formula :
    (∀ l : List Activity, calculate_average_pace l = claimAvgPace l) ∧
      calculate_average_pace [] = 0 :=
  ⟨avg_eq_claimAvgPace, rfl⟩

/-- C5: removing an activity with `distance <= 0` or `moving_time <= 0`
from anywhere in the input list changes neither `calculate_average_pace`
nor `calculate_estimated_gap`. -/
theorem C5_invalid_contributes_nothing (l₁ l₂ : List Activity) (a : Activity)
    (h : a.distanceVal ≤ 0 ∨ a.timeVal ≤ 0) :
    calculate_average_pace (l₁ ++ a :: l₂) = calculate_average_pace (l₁ ++ l₂) ∧
    calculate_estimated_gap (l₁ ++ a :: l₂) = calculate_estimated_gap (l₁ ++ l₂) := by
  constructor
  · unfold calculate_average_pace
    rw [List.foldl_append, List.foldl_append, List.foldl_cons, paceAccum_skip a h]
  · unfold calculate_estimated_gap
    rw [List.foldl_append, List.foldl_append, List.foldl_cons, gapAccum_skip a h]

/-- Witness for C5: dropping an all-fields-missing activity (distance
defaults to 0) between two real runs leaves both averages unchanged. -/
theorem C5_invalid_contributes_nothing_witness :
    calculate_average_pace ([exActUp] ++ ({} : Activity) :: [exActFlat])
      = calculate_average_pace ([exActUp] ++ [exActFlat]) ∧
    calculate_estimated_gap ([exActUp] ++ ({} : Activity) :: [exActFlat])
      = calculate_estimated_gap ([exActUp] ++ [exActFlat]) :=
  C5_invalid_contributes_nothing [exActUp] [exActFlat] {} (Or.inl (by decide))

/-! ### Nonnegativity and safety helpers -/

lemma claimTotalDistance_nonneg (l : List Activity) : 0 ≤ claimTotalDistance l := by
  apply List.sum_nonneg
  intro x hx
  obtain ⟨a, ha, rfl⟩ := List.mem_map.mp hx
  have hv := (claimValid_iff a).mp (List.mem_filter.mp ha).2
  rcases not_or.mp hv with ⟨h1, _⟩
  exact le_of_lt (lt_of_not_le h1)

lemma claimTotalTime_nonneg (l : List Activity) : 0 ≤ claimTotalTime l := by
  apply List.sum_nonneg
  intro x hx
  obtain ⟨a, ha, rfl⟩ := List.mem_map.mp hx
  have hv := (claimValid_iff a).mp (List.mem_filter.mp ha).2
  rcases not_or.mp hv with ⟨_, h2⟩
  exact le_of_lt (lt_of_not_le h2)

lemma claimAvgPace_nonneg (l : List Activity) : 0 ≤ claimAvgPace l := by
  unfold claimAvgPace
  by_cases h : claimTotalDistance l = 0
  · rw [if_pos h]
  · rw [if_neg h]
    have hD : (0:ℚ) ≤ claimTotalDistance l / 1000 :=
      div_nonneg (claimTotalDistance_nonneg l) (by norm_num)
    exact div_nonneg (div_nonneg (claimTotalTime_nonneg l) hD) (by norm_num)

lemma claimElevationFactor_pos (a : Activity) (hg : 0 ≤ a.gainVal)
    (hd : 0 < a.distanceVal) : 0 < claimElevationFactor a := by
  unfold claimElevationFactor claimGradePercent
  have h1 : 0 ≤ a.gainVal / a.distanceVal := div_nonneg hg (le_of_lt hd)
  have h2 : (0:ℚ) ≤ a.gainVal / a.distanceVal * 100 * (33 / 1000) := by
    apply mul_nonneg (mul_nonneg h1 _) <;> norm_num
  linarith

lemma hsafe_of_gains (l : List Activity) (hg : ∀ a ∈ l, 0 ≤ a.gainVal) :
    ∀ a ∈ l, claimValid a = true → claimElevationFactor a ≠ 0 := by
  intro a ha hv
  rcases not_or.mp ((claimValid_iff a).mp hv) with ⟨h1, _⟩
  exact ne_of_gt (claimElevationFactor_pos a (hg a ha) (lt_of_not_le h1))

lemma claimTotalAdjTime_nonneg (l : List Activity)
    (hg : ∀ a ∈ l, 0 ≤ a.gainVal) : 0 ≤ claimTotalAdjTime l := by
  apply List.sum_nonneg
  intro x hx
  obtain ⟨a, ha, rfl⟩ := List.mem_map.mp hx
  have hmem := List.mem_filter.mp ha
  have hv := (claimValid_iff a).mp hmem.2
  rcases not_or.mp hv with ⟨h1, h2⟩
  have hd : 0 < a.distanceVal := lt_of_not_le h1
  have ht : 0 < a.timeVal := lt_of_not_le h2
  have hfac := claimElevationFactor_pos a (hg a hmem.1) hd
  exact le_of_lt (div_pos ht hfac)

lemma claimGap_nonneg (l : List Activity) (hg : ∀ a ∈ l, 0 ≤ a.gainVal) :
    0 ≤ claimGap l := by
  unfold claimGap
  by_cases h : claimTotalDistance l = 0
  · rw [if_pos h]
  · rw [if_neg h]
    have hD : (0:ℚ) ≤ claimTotalDistance l / 1000 :=
      div_nonneg (claimTotalDistance_nonneg l) (by norm_num)
    exact div_nonneg (div_nonneg (claimTotalAdjTime_nonneg l hg) hD) (by norm_num)

lemma claimAvgPace_nil : claimAvgPace [] = 0 := rfl

lemma claimGap_nil : claimGap [] = 0 := rfl

lemma stats_eq_some (l : List Activity)
    (hsafe : ∀ a ∈ l, claimValid a = true → claimElevationFactor a ≠ 0) :
    calculate_shoe_statistics l = some
      { activity_count := l.length
        total_distance_km := (l.map Activity.distanceVal).sum / 1000
        average_pace_min_per_km := claimAvgPace l
        estimated_gap_min_per_km := claimGap l
        non_race_count := (filter_non_race_activities l).length
        average_pace_non_race_min_per_km :=
          claimAvgPace (filter_non_race_activities l)
        estimated_gap_non_race_min_per_km :=
          claimGap (filter_non_race_activities l) } := by
  have hsub : ∀ a ∈ filter_non_race_activities l,
      claimValid a = true → claimElevationFactor a ≠ 0 :=
    fun a ha => hsafe a (List.mem_of_mem_filter ha)
  unfold calculate_shoe_statistics
  rw [gap_eq_claimGap l hsafe, gap_eq_claimGap _ hsub,
    avg_eq_claimAvgPace, avg_eq_claimAvgPace]

lemma exActUp_safe :
    ∀ a ∈ [exActUp], claimValid a = true → claimElevationFactor a ≠ 0 := by
  intro a ha
  simp only [List.mem_singleton] at ha
  subst ha
  norm_num [claimElevationFactor, claimGradePercent, Activity.gainVal,
    Activity.distanceVal, exActUp]

/-- C3 counterexample: the activity with distance 33 m, moving time 1 s
and elevation gain −10 m has elevation factor exactly 0, and
`calculate_estimated_gap` on it raises a `ZeroDivisionError` (modelled as
`none`), contradicting the claim that the core functions raise no
exception and never divide by zero under any data-model input. -/
theorem C3_counterexample :
    claimElevationFactor exActZeroDiv = 0 ∧
    calculate_estimated_gap [exActZeroDiv] = none := by
  constructor
  · norm_num [claimElevationFactor, claimGradePercent, Activity.gainVal,
      Activity.distanceVal, exActZeroDiv]
  · norm_num [calculate_estimated_gap, gapAccum, elevationFactorOf,
      ADJUSTMENT_COEFFICIENT, Activity.distanceVal, Activity.timeVal,
      Activity.gainVal, exActZeroDiv]

/-- C3 amended: provided no valid activity has a zero elevation factor,
`calculate_estimated_gap` and `calculate_shoe_statistics` raise no
exception (return `some`); the remaining core functions are total by
construction. -/
theorem C3_no_exception_amended (l : List Activity)
    (hsafe : ∀ a ∈ l, claimValid a = true → claimElevationFactor a ≠ 0) :
    (calculate_estimated_gap l).isSome ∧
    (calculate_shoe_statistics l).isSome := by
  rw [gap_eq_claimGap l hsafe, stats_eq_some l hsafe]
  exact ⟨rfl, rfl⟩

/-- Witness for C3 (amended): on a steep but well-formed activity both
functions return a value. -/
theorem C3_no_exception_amended_witness :
    (calculate_estimated_gap [exActUp]).isSome ∧
    (calculate_shoe_statistics [exActUp]).isSome :=
  C3_no_exception_amended [exActUp] exActUp_safe

/-- C4 counterexample: on the single activity with distance 100 m,
moving time 100 s and elevation gain −100 m the elevation factor is
−2.3, so the estimated-GAP field of the statistics is −500/69 < 0,
contradicting the claimed non-negativity of all pace/GAP values. -/
theorem C4_counterexample :
    (calculate_shoe_statistics [exActNegGap]).map
        ShoeStatistics.estimated_gap_min_per_km = some (-500 / 69) ∧
    (-500 / 69 : ℚ) < 0 := by
  constructor
  · have hsafe : ∀ a ∈ [exActNegGap],
        claimValid a = true → claimElevationFactor a ≠ 0 := by
      intro a ha
      simp only [List.mem_singleton] at ha
      subst ha
      norm_num [claimElevationFactor, claimGradePercent, Activity.gainVal,
        Activity.distanceVal, exActNegGap]
    rw [stats_eq_some [exActNegGap] hsafe]
    simp only [Option.map_some']
    norm_num [claimGap, claimTotalDistance, claimTotalAdjTime, claimValid,
      claimAdjustedTime, claimElevationFactor, claimGradePercent,
      Activity.distanceVal, Activity.timeVal, Activity.gainVal, List.filter,
      exActNegGap]
  · norm_num

/-- C4 amended: provided every activity's elevation gain is non-negative
(so every valid activity's elevation factor is at least 1), the
statistics exist and all four pace/GAP fields are non-negative, and each
is zero whenever its contributing activity set is empty. -/
theorem C4_stats_nonneg_amended (l : List Activity)
    (hg : ∀ a ∈ l, 0 ≤ a.gainVal) :
    ∃ s, calculate_shoe_statistics l = some s ∧
      (0 ≤ s.average_pace_min_per_km ∧ 0 ≤ s.estimated_gap_min_per_km ∧
        0 ≤ s.average_pace_non_race_min_per_km ∧
        0 ≤ s.estimated_gap_non_race_min_per_km) ∧
      (l = [] → s.average_pace_min_per_km = 0 ∧
        s.estimated_gap_min_per_km = 0 ∧
        s.average_pace_non_race_min_per_km = 0 ∧
        s.estimated_gap_non_race_min_per_km = 0) ∧
      (filter_non_race_activities l = [] →
        s.average_pace_non_race_min_per_km = 0 ∧
        s.estimated_gap_non_race_min_per_km = 0) := by
  have hgnr : ∀ a ∈ filter_non_race_activities l, 0 ≤ a.gainVal :=
    fun a ha => hg a (List.mem_of_mem_filter ha)
  refine ⟨_, stats_eq_some l (hsafe_of_gains l hg), ?_, ?_, ?_⟩
  · exact ⟨claimAvgPace_nonneg l, claimGap_nonneg l hg,
      claimAvgPace_nonneg _, claimGap_nonneg _ hgnr⟩
  · rintro rfl
    have hnil : filter_non_race_activities ([] : List Activity) = [] := rfl
    simp only [hnil]
    exact ⟨claimAvgPace_nil, claimGap_nil, claimAvgPace_nil, claimGap_nil⟩
  · intro hnr
    simp only [hnr]
    exact ⟨claimAvgPace_nil, claimGap_nil⟩

/-- Witness for C4 (amended) on the uphill activity: statistics exist
and all four pace/GAP fields are non-negative. -/
theorem C4_stats_nonneg_amended_witness :
    ∃ s, calculate_shoe_statistics [exActUp] = some s ∧
      (0 ≤ s.average_pace_min_per_km ∧ 0 ≤ s.estimated_gap_min_per_km ∧
        0 ≤ s.average_pace_non_race_min_per_km ∧
        0 ≤ s.estimated_gap_non_race_min_per_km) ∧
      ([exActUp] = ([] : List Activity) → s.average_pace_min_per_km = 0 ∧
        s.estimated_gap_min_per_km = 0 ∧
        s.average_pace_non_race_min_per_km = 0 ∧
        s.estimated_gap_non_race_min_per_km = 0) ∧
      (filter_non_race_activities [exActUp] = [] →
        s.average_pace_non_race_min_per_km = 0 ∧
        s.estimated_gap_non_race_min_per_km = 0) := by
  refine C4_stats_nonneg_amended [exActUp] ?_
  intro a ha
  simp only [List.mem_singleton] at ha
  subst ha
  norm_num [Activity.gainVal, exActUp]

/-- C9 counterexample: a group containing only race activities can still
raise: the race-named zero-factor activity makes the full-set GAP call
divide by zero, so `calculate_shoe_statistics` raises (returns `none`)
instead of producing zeroed non-race fields without error. -/
theorem C9_counterexample :
    (∀ a ∈ [exRaceZeroDiv], is_race a = true) ∧
    calculate_shoe_statistics [exRaceZeroDiv] = none := by
  constructor
  · intro a ha
    simp only [List.mem_singleton] at ha
    subst ha
    decide
  · have hgap : calculate_estimated_gap [exRaceZeroDiv] = none := by
      norm_num [calculate_estimated_gap, gapAccum, elevationFactorOf,
        ADJUSTMENT_COEFFICIENT, Activity.distanceVal, Activity.timeVal,
        Activity.gainVal, exRaceZeroDiv]
    simp [calculate_shoe_statistics, hgap]

/-- C9 amended: provided no valid activity has a zero elevation factor,
`calculate_shoe_statistics` computes every average field by invoking the
estimator independently on the full set and on the non-race subset, and
a group of only race activities gets non-race pace and GAP fields equal
to 0 with no error. -/
theorem C9_estimator_invoked_independently (l : List Activity)
    (hsafe : ∀ a ∈ l, claimValid a = true → claimElevationFactor a ≠ 0) :
    ∃ s, calculate_shoe_statistics l = some s ∧
      s.average_pace_min_per_km = calculate_average_pace l ∧
      calculate_estimated_gap l = some s.estimated_gap_min_per_km ∧
      s.average_pace_non_race_min_per_km
        = calculate_average_pace (filter_non_race_activities l) ∧
      calculate_estimated_gap (filter_non_race_activities l)
        = some s.estimated_gap_non_race_min_per_km ∧
      ((∀ a ∈ l, is_race a = true) →
        s.average_pace_non_race_min_per_km = 0 ∧
        s.estimated_gap_non_race_min_per_km = 0) := by
  have hsub : ∀ a ∈ filter_non_race_activities l,
      claimValid a = true → claimElevationFactor a ≠ 0 :=
    fun a ha => hsafe a (List.mem_of_mem_filter ha)
  refine ⟨_, stats_eq_some l hsafe, (avg_eq_claimAvgPace l).symm,
    gap_eq_claimGap l hsafe, (avg_eq_claimAvgPace _).symm,
    gap_eq_claimGap _ hsub, ?_⟩
  intro hrace
  have hnil : filter_non_race_activities l = [] := by
    unfold filter_non_race_activities
    apply List.filter_eq_nil_iff.mpr
    intro a ha
    simp [hrace a ha]
  rw [hnil]
  exact ⟨claimAvgPace_nil, claimGap_nil⟩

/-- Witness for C9 (amended) on a one-element all-race group with sound
numbers: statistics exist and the non-race fields are zero. -/
theorem C9_estimator_invoked_independently_witness :
    ∃ s, calculate_shoe_statistics [exRaceFlat] = some s ∧
      s.average_pace_min_per_km = calculate_average_pace [exRaceFlat] ∧
      calculate_estimated_gap [exRaceFlat]
        = some s.estimated_gap_min_per_km ∧
      s.average_pace_non_race_min_per_km
        = calculate_average_pace (filter_non_race_activities [exRaceFlat]) ∧
      calculate_estimated_gap (filter_non_race_activities [exRaceFlat])
        = some s.estimated_gap_non_race_min_per_km ∧
      ((∀ a ∈ [exRaceFlat], is_race a = true) →
        s.average_pace_non_race_min_per_km = 0 ∧
        s.estimated_gap_non_race_min_per_km = 0) := by
  refine C9_estimator_invoked_independently [exRaceFlat] ?_
  intro a ha
  simp only [List.mem_singleton] at ha
  subst ha
  norm_num [claimElevationFactor, claimGradePercent, Activity.gainVal,
    Activity.distanceVal, exRaceFlat]

/-- C7: `is_race` is true exactly when `workout_type == 1` or the
lower-cased name contains one of the six literal substrings "race",
"parkrun", "marathon", "half marathon", "10k race", "5k race"
(substring, not whole-word); it accepts "Boston Marathon", accepts
`workout_type = 1` with any name, and rejects "Evening Jog" with
`workout_type` absent. -/
theorem C7_is_race_characterisation :
    (∀ a : Activity, is_race a = true ↔
      (a.workout_type = some 1 ∨ nameHasKw a "race" ∨ nameHasKw a "parkrun" ∨
        nameHasKw a "marathon" ∨ nameHasKw a "half marathon" ∨
        nameHasKw a "10k race" ∨ nameHasKw a "5k race")) ∧
    is_race exBoston = true ∧
    (∀ n : Option String, is_race (raceTyped n) = true) ∧
    is_race exEveningJog = false := by
  refine ⟨fun a => ?_, by decide, fun n => rfl, by decide⟩
  by_cases h : a.workout_type = some 1
  · simp [is_race, h]
  · simp [is_race, h, race_keywords, nameHasKw, or_assoc]

/-! ### Facts about `ratTrunc` -/

lemma ratTrunc_of_nonneg (q : ℚ) (h : 0 ≤ q) : ratTrunc q = ⌊q⌋ :=
  if_neg (not_lt.mpr h)

lemma ratTrunc_zero_of_neg_unit (q : ℚ) (h1 : -1 < q) (h2 : q < 0) :
    ratTrunc q = 0 := by
  unfold ratTrunc
  rw [if_pos h2]
  have hfl : ⌊-q⌋ = 0 := by
    rw [Int.floor_eq_zero_iff]
    constructor
    · linarith
    · linarith
  rw [hfl]
  ring

/-- C8 counterexample: at pace −1/2 the code renders "0:-30" (truncation
toward zero), while the claim's floored rendering gives "-1:30"; so the
claim does not hold for every nonzero pace value. -/
theorem C8_counterexample :
    format_pace (-(1:ℚ)/2) = "0:-30" ∧
    claimFormatPace (-(1:ℚ)/2) = "-1:30" ∧
    format_pace (-(1:ℚ)/2) ≠ claimFormatPace (-(1:ℚ)/2) := by
  have htr : ratTrunc (-(1:ℚ)/2) = 0 :=
    ratTrunc_zero_of_neg_unit _ (by norm_num) (by norm_num)
  have hsec : ratTrunc ((-(1:ℚ)/2 - ((0 : Int) : ℚ)) * 60) = -30 := by
    have harg : ((-(1:ℚ)/2 - ((0 : Int) : ℚ)) * 60) = -30 := by push_cast; ring
    rw [harg]
    unfold ratTrunc
    rw [if_pos (by norm_num)]
    norm_num
  have h1 : format_pace (-(1:ℚ)/2) = "0:-30" := by
    unfold format_pace
    rw [if_neg (by norm_num), htr, hsec]
    rfl
  have hfl : ⌊(-(1:ℚ)/2)⌋ = -1 := by
    rw [Int.floor_eq_iff]
    norm_num
  have h2 : claimFormatPace (-(1:ℚ)/2) = "-1:30" := by
    unfold claimFormatPace
    rw [if_neg (by norm_num), hfl]
    have harg : ((-(1:ℚ)/2 - ((-1 : Int) : ℚ)) * 60) = 30 := by push_cast; ring
    rw [harg]
    norm_num
    rfl
  refine ⟨h1, h2, ?_⟩
  rw [h1, h2]
  decide

/-- C8 amended: restricted to non-negative pace values, `format_pace`
renders exactly as the claim states (0 as "0:00", otherwise floored
minutes, colon, floored fractional seconds zero-padded to two digits,
with no carry at the 59.999-second boundary); in particular
`format_pace (11/2) = "5:30"` and 5 minutes 59.999 renders "5:59". -/
theorem C8_format_pace_amended :
    (∀ p : ℚ, 0 ≤ p → format_pace p = claimFormatPace p) ∧
    format_pace (11/2) = "5:30" ∧
    format_pace (5 + 59999/60000) = "5:59" := by
  have main : ∀ p : ℚ, 0 ≤ p → format_pace p = claimFormatPace p := by
    intro p hp
    unfold format_pace claimFormatPace
    by_cases h0 : p = 0
    · rw [if_pos h0, if_pos h0]
    · have h1 : ratTrunc p = ⌊p⌋ := ratTrunc_of_nonneg p hp
      have hfrac : 0 ≤ (p - ((⌊p⌋ : Int) : ℚ)) * 60 := by
        have := Int.floor_le p
        have h60 : (0:ℚ) ≤ 60 := by norm_num
        exact mul_nonneg (by linarith) h60
      have h2 : ratTrunc ((p - ((⌊p⌋ : Int) : ℚ)) * 60)
          = ⌊(p - ((⌊p⌋ : Int) : ℚ)) * 60⌋ := ratTrunc_of_nonneg _ hfrac
      rw [if_neg h0, if_neg h0, h1, h2]
  refine ⟨main, ?_, ?_⟩
  · rw [main (11/2) (by norm_num)]
    have hfl : ⌊(11:ℚ)/2⌋ = 5 := by norm_num
    unfold claimFormatPace
    rw [if_neg (by norm_num), hfl]
    have harg : (((11:ℚ)/2 - ((5 : Int) : ℚ)) * 60) = 30 := by push_cast; ring
    rw [harg]
    norm_num
    rfl
  · rw [main _ (by norm_num)]
    have hfl : ⌊(5:ℚ) + 59999/60000⌋ = 5 := by
      rw [Int.floor_eq_iff]
      norm_num
    unfold claimFormatPace
    rw [if_neg (by norm_num), hfl]
    have harg : (((5:ℚ) + 59999/60000 - ((5 : Int) : ℚ)) * 60) = 59999/1000 := by
      push_cast; ring
    rw [harg]
    have hfl2 : ⌊(59999:ℚ)/1000⌋ = 59 := by norm_num
    rw [hfl2]
    rfl

/-- Witness for C8 (amended) at pace 11/2: the code and the claim's
rendering agree and produce "5:30". -/
theorem C8_format_pace_amended_witness :
    format_pace (11/2) = claimFormatPace (11/2) ∧
    format_pace (11/2) = "5:30" :=
  ⟨C8_format_pace_amended.1 (11/2) (by norm_num),
    C8_format_pace_amended.2.1⟩

/-- C10 counterexample: at pace −1/120 (inside the claimed range
−1 < p < 0) the seconds part truncates to 0, not to a negative number,
and the rendered string is "0:00" — so the claim's "seconds part renders
as a negative number" fails on part of the claimed range. -/
theorem C10_counterexample :
    (-1 < -(1:ℚ)/120 ∧ -(1:ℚ)/120 < 0) ∧
    ¬ secondsPart (-(1:ℚ)/120) < 0 ∧
    format_pace (-(1:ℚ)/120) = "0:00" := by
  have htr : ratTrunc (-(1:ℚ)/120) = 0 :=
    ratTrunc_zero_of_neg_unit _ (by norm_num) (by norm_num)
  have hsec : ratTrunc ((-(1:ℚ)/120 - ((0 : Int) : ℚ)) * 60) = 0 := by
    have harg : ((-(1:ℚ)/120 - ((0 : Int) : ℚ)) * 60) = -(1:ℚ)/2 := by
      push_cast; ring
    rw [harg]
    exact ratTrunc_zero_of_neg_unit _ (by norm_num) (by norm_num)
  have hs : secondsPart (-(1:ℚ)/120) = 0 := by
    unfold secondsPart
    rw [htr]
    exact hsec
  refine ⟨⟨by norm_num, by norm_num⟩, ?_, ?_⟩
  · rw [hs]
    omega
  · unfold format_pace
    rw [if_neg (by norm_num), htr, hsec]
    rfl

/-- C10 amended: for every pace p with −1 < p ≤ −1/60 (the part of the
claimed range where the truncated seconds are nonzero), the minutes part
truncates to 0, the seconds part truncates to a strictly negative
number, and the output is "0:" followed by that negative number —
not a well-formed minutes:seconds string. -/
theorem C10_negative_seconds_amended (p : ℚ) (h1 : -1 < p)
    (h2 : p ≤ -1/60) :
    ratTrunc p = 0 ∧ secondsPart p < 0 ∧
    format_pace p = "0:" ++ toString (secondsPart p) := by
  have hneg : p < 0 := lt_of_le_of_lt h2 (by norm_num)
  have htr : ratTrunc p = 0 := ratTrunc_zero_of_neg_unit p h1 hneg
  have hform : ratTrunc ((p - ((0 : Int) : ℚ)) * 60) = secondsPart p := by
    unfold secondsPart
    rw [htr]
  have hs_neg : secondsPart p < 0 := by
    rw [← hform]
    have harg : ((p - ((0 : Int) : ℚ)) * 60) = p * 60 := by push_cast; ring
    rw [harg]
    unfold ratTrunc
    have hlt : p * 60 < 0 := mul_neg_of_neg_of_pos hneg (by norm_num)
    rw [if_pos hlt]
    have hbig : (1:ℤ) ≤ ⌊-(p * 60)⌋ := by
      apply Int.le_floor.mpr
      push_cast
      linarith
    linarith
  refine ⟨htr, hs_neg, ?_⟩
  unfold format_pace
  rw [if_neg (ne_of_lt hneg), htr, hform]
  have hpad : pad2 (secondsPart p) = toString (secondsPart p) := by
    unfold pad2
    rw [if_neg]
    intro hc
    exact absurd hs_neg (not_lt.mpr hc.1)
  rw [hpad]
  rfl

/-- Witness for C10 (amended) at the claim's own example −1/2: the code
renders "0:" followed by the negative seconds −30, i.e. "0:-30". -/
theorem C10_negative_seconds_amended_witness :
    format_pace (-(1:ℚ)/2) = "0:" ++ toString (secondsPart (-(1:ℚ)/2)) ∧
    secondsPart (-(1:ℚ)/2) = -30 := by
  constructor
  · exact (C10_negative_seconds_amended (-(1:ℚ)/2) (by norm_num)
      (by norm_num)).2.2
  · unfold secondsPart
    have htr : ratTrunc (-(1:ℚ)/2) = 0 :=
      ratTrunc_zero_of_neg_unit _ (by norm_num) (by norm_num)
    rw [htr]
    have harg : ((-(1:ℚ)/2 - ((0 : Int) : ℚ)) * 60) = -30 := by
      push_cast; ring
    rw [harg]
    unfold ratTrunc
    rw [if_pos (by norm_num)]
    norm_num

/-! ### Lemmas about `insertGrouped` and `group_by_gear` -/

lemma keysOf_insertGrouped (k : String) (a : Activity)
    (m : List (String × List Activity)) :
    keysOf (insertGrouped k a m)
      = if k ∈ keysOf m then keysOf m else keysOf m ++ [k] := by
  induction m with
  | nil => simp [insertGrouped, keysOf]
  | cons p rest ih =>
      obtain ⟨k₁, g⟩ := p
      by_cases h : k₁ = k
      · subst h
        simp [insertGrouped, keysOf]
      · simp only [insertGrouped, if_neg h]
        simp only [keysOf, List.map_cons] at ih ⊢
        rw [ih]
        by_cases hmem : k ∈ List.map Prod.fst rest
        · rw [if_pos hmem, if_pos (List.mem_cons_of_mem _ hmem)]
        · rw [if_neg hmem, if_neg, List.cons_append]
          simp only [List.mem_cons]
          rintro (rfl | hc)
          · exact h rfl
          · exact hmem hc

lemma lookupGroup_insertGrouped (k k' : String) (a : Activity)
    (m : List (String × List Activity)) :
    lookupGroup k' (insertGrouped k a m)
      = if k' = k then some (((lookupGroup k m).getD []) ++ [a])
        else lookupGroup k' m := by
  induction m with
  | nil =>
      by_cases h : k' = k
      · subst h
        simp [insertGrouped, lookupGroup]
      · simp [insertGrouped, lookupGroup, h, Ne.symm h]
  | cons p rest ih =>
      obtain ⟨k₁, g⟩ := p
      by_cases h1 : k₁ = k
      · subst h1
        by_cases h2 : k' = k₁
        · subst h2
          simp [insertGrouped, lookupGroup]
        · simp [insertGrouped, lookupGroup, h2, Ne.symm h2]
      · by_cases h2 : k' = k
        · subst h2
          simp [insertGrouped, lookupGroup, h1, ih]
        · by_cases h3 : k' = k₁
          · subst h3
            simp [insertGrouped, lookupGroup, h1, h2]
          · simp [insertGrouped, lookupGroup, h1, h2, h3, Ne.symm h3, ih]

lemma mem_iff_lookupGroup : ∀ (m : List (String × List Activity)),
    (keysOf m).Nodup → ∀ (k : String) (g : List Activity),
    ((k, g) ∈ m ↔ lookupGroup k m = some g) := by
  intro m
  induction m with
  | nil =>
      intro _ k g
      simp [lookupGroup]
  | cons p rest ih =>
      obtain ⟨k₁, g₁⟩ := p
      intro hnd k g
      have hnd2 : (keysOf rest).Nodup ∧ k₁ ∉ keysOf rest := by
        simp only [keysOf, List.map_cons, List.nodup_cons] at hnd
        exact ⟨hnd.2, hnd.1⟩
      simp only [List.mem_cons, lookupGroup]
      by_cases h : k₁ = k
      · subst h
        rw [if_pos rfl]
        constructor
        · rintro (heq | hmem)
          · injection heq with h1 h2
            rw [h2]
          · exact absurd (List.mem_map_of_mem Prod.fst hmem) hnd2.2
        · intro hsome
          left
          have hg : g₁ = g := Option.some_inj.mp hsome
          subst hg
          rfl
      · rw [if_neg h, ← ih hnd2.1 k g]
        constructor
        · rintro (heq | hmem)
          · injection heq with h1 h2
            exact absurd h1.symm h
          · exact hmem
        · intro hm
          right
          exact hm

lemma groupInv_nil : GroupInv [] [] := by
  refine ⟨List.nodup_nil, ?_, ?_⟩
  · intro k
    simp [keysOf]
  · intro k
    simp [lookupGroup]

lemma groupInv_step (pre : List Activity) (a : Activity)
    (m : List (String × List Activity)) (h : GroupInv pre m) :
    GroupInv (pre ++ [a]) (insertGrouped (gearKey a) a m) := by
  obtain ⟨hnd, hkeys, hlook⟩ := h
  refine ⟨?_, ?_, ?_⟩
  · rw [keysOf_insertGrouped]
    by_cases hmem : gearKey a ∈ keysOf m
    · rw [if_pos hmem]
      exact hnd
    · rw [if_neg hmem]
      refine List.Nodup.append hnd (List.nodup_singleton _) ?_
      intro x hx hx'
      simp only [List.mem_singleton] at hx'
      subst hx'
      exact hmem hx
  · intro k
    rw [keysOf_insertGrouped, List.map_append]
    by_cases hmem : gearKey a ∈ keysOf m
    · rw [if_pos hmem]
      constructor
      · intro hk
        exact List.mem_append_left _ ((hkeys k).mp hk)
      · intro hk
        rcases List.mem_append.mp hk with hk | hk
        · exact (hkeys k).mpr hk
        · simp only [List.map_cons, List.map_nil, List.mem_singleton] at hk
          subst hk
          exact hmem
    · rw [if_neg hmem]
      simp only [List.mem_append, List.map_cons, List.map_nil,
        List.mem_singleton, hkeys k]
  · intro k
    rw [lookupGroup_insertGrouped, List.map_append, List.filter_append]
    by_cases hk : k = gearKey a
    · have hif : k ∈ pre.map gearKey ++ List.map gearKey [a] := by
        apply List.mem_append_right
        simp [hk]
      rw [if_pos hk, if_pos hif]
      have hfa : List.filter (fun b => gearKey b == k) [a] = [a] := by
        simp [hk]
      rw [hfa, ← hk, hlook k]
      by_cases hmem : k ∈ pre.map gearKey
      · rw [if_pos hmem]
        rfl
      · rw [if_neg hmem]
        have hfe : pre.filter (fun b => gearKey b == k) = [] := by
          apply List.filter_eq_nil_iff.mpr
          intro b hb
          simp only [beq_iff_eq]
          intro hbe
          exact hmem (hbe ▸ List.mem_map_of_mem gearKey hb)
        rw [hfe]
        rfl
    · rw [if_neg hk, hlook k]
      have hfa : List.filter (fun b => gearKey b == k) [a] = [] := by
        simp only [List.filter_cons, List.filter_nil, beq_iff_eq]
        rw [if_neg (fun hc => hk hc.symm)]
      rw [hfa, List.append_nil]
      by_cases hmem : k ∈ pre.map gearKey
      · rw [if_pos hmem, if_pos (List.mem_append_left _ hmem)]
      · rw [if_neg hmem, if_neg]
        intro hc
        rcases List.mem_append.mp hc with hc | hc
        · exact hmem hc
        · simp only [List.map_cons, List.map_nil, List.mem_singleton] at hc
          exact hk hc

lemma groupInv_fold (l : List Activity) :
    ∀ (pre : List Activity) (m : List (String × List Activity)),
      GroupInv pre m →
      GroupInv (pre ++ l)
        (l.foldl (fun m a => insertGrouped (gearKey a) a m) m) := by
  induction l with
  | nil =>
      intro pre m h
      rw [List.foldl_nil, List.append_nil]
      exact h
  | cons a t ih =>
      intro pre m h
      rw [List.foldl_cons]
      have h2 := ih (pre ++ [a]) _ (groupInv_step pre a m h)
      rw [List.append_assoc] at h2
      exact h2

lemma group_by_gear_inv (l : List Activity) : GroupInv l (group_by_gear l) :=
  groupInv_fold l [] [] groupInv_nil

/-- C6: `group_by_gear` partitions its input: the group keys are
distinct and are exactly the gear keys encountered (the equipment id
when present and non-empty, else "no_gear"), and each key's group is the
in-order sublist of the input with that key — so every activity lands in
exactly one group, in encounter order; in particular gear ids
[A, null, A, B] yield exactly the groups A = [1st, 3rd],
"no_gear" = [2nd], B = [4th]. -/
theorem C6_group_by_gear_partition :
    (∀ l : List Activity,
      (keysOf (group_by_gear l)).Nodup ∧
      (∀ k, k ∈ keysOf (group_by_gear l) ↔ k ∈ l.map gearKey) ∧
      (∀ k g, (k, g) ∈ group_by_gear l →
        g = l.filter fun b => gearKey b == k)) ∧
    group_by_gear [exGearA0, exGearNone, exGearA2, exGearB]
      = [("A", [exGearA0, exGearA2]), ("no_gear", [exGearNone]),
         ("B", [exGearB])] := by
  constructor
  · intro l
    obtain ⟨hnd, hkeys, hlook⟩ := group_by_gear_inv l
    refine ⟨hnd, hkeys, ?_⟩
    intro k g hmem
    have hl := (mem_iff_lookupGroup _ hnd k g).mp hmem
    rw [hlook k] at hl
    by_cases hin : k ∈ l.map gearKey
    · rw [if_pos hin] at hl
      exact (Option.some_inj.mp hl).symm
    · rw [if_neg hin] at hl
      simp at hl
  · decide

/-- Witness for C6: reading off the group of key "A" from the concrete
example, it is exactly the in-order filter of the input by that key. -/
theorem C6_group_by_gear_partition_witness :
    [exGearA0, exGearA2]
      = List.filter (fun b => gearKey b == "A")
          [exGearA0, exGearNone, exGearA2, exGearB] :=
  (C6_group_by_gear_partition.1 _).2.2 "A" [exGearA0, exGearA2] (by decide)
